import Mathlib

/-!
Shallow embedding of `safe_control_gym/controllers/safe_ddpg/safe_ddpg.py`
(class `SafeExplorerDDPG`): the training-step orchestration, the
checkpoint save/load protocol, the learn-loop checkpoint/eval decisions,
the evaluation loop `run`, and `reset`.

Modelling choices: observations, actions, rewards and (per-environment)
constraint-value records are integers, one scalar per parallel
environment, so a batch is a `List Int`; opaque collaborator blobs
(agent parameters, safety-layer parameters, normalizer statistics, RNG
states, environment states, the constraint buffer) are natural numbers;
the collaborator operations (agent, environment, normalizers, buffer
sampling) are supplied as explicit function arguments in a `Collab`
record, so every theorem is quantified over arbitrary collaborators.
`_flatten_obs`/`_unflatten_obs` are identities in this representation.
-/

/-- Replay-buffer transition as pushed by `train_step` (one entry per
vectorized environment step; each list holds one value per parallel
environment). Fields match the dict pushed at `safe_ddpg.py:369`. -/
structure Transition where
  obs : List Int
  act : List Int
  rew : List Int
  next_obs : List Int
  mask : List Int
  c : List Int
deriving DecidableEq, Repr

/-- Modelled from the spec: `SafeDDPGBuffer` (its source file
`safe_ddpg_utils.py` is not among the sources). Fixed-capacity ring
buffer: `push` appends and overwrites the oldest entry when full. -/
structure SafeDDPGBuffer where
  data : List Transition
  maxSize : Nat
deriving DecidableEq, Repr

/-- Modelled from the spec: ring-buffer push (spec section 4.1). -/
def SafeDDPGBuffer.push (b : SafeDDPGBuffer) (t : Transition) : SafeDDPGBuffer :=
  if b.data.length < b.maxSize then {b with data := b.data ++ [t]}
  else {b with data := b.data.tail ++ [t]}

/-- Per-environment `terminal_info` dictionary contents used by the
orchestrator: the `TimeLimit.truncated` flag (absent key modelled as
`none`), `terminal_observation` and terminal `constraint_values`. -/
structure TermInfo where
  TimeLimit_truncated : Option Bool
  terminal_observation : Int
  constraint_values : Int
deriving DecidableEq, Repr

/-- Per-environment entry of `info["n"]` after a vectorized step. -/
structure EnvInfoN where
  constraint_values : Int
  terminal_info : Option TermInfo
deriving DecidableEq, Repr

/-- Result of one vectorized `env.step(act)` call. -/
structure StepOut where
  next_obs : List Int
  rew : List Int
  done : List Bool
  infoN : List EnvInfoN
deriving DecidableEq, Repr

/-- Info dict of the single (evaluation) environment: constraint values
plus the episode-end record `info["episode"]` with return and length. -/
structure EvalInfo where
  constraint_values : Int
  episode : Option (Rat × Rat)
deriving DecidableEq, Repr

/-- Result of one single-environment `env.step(action)` call in `run`. -/
structure EvalOut where
  obs : Int
  rew : Int
  done : Bool
  info : EvalInfo
deriving DecidableEq, Repr

/-- Serialized checkpoint record written by `save` (`safe_ddpg.py:143`).
Optional fields are present exactly when `save` writes them. -/
structure Checkpoint where
  agent : Nat
  safety_layer : Nat
  obs_normalizer : Nat
  reward_normalizer : Nat
  total_steps : Option Nat
  obs : Option (List Int)
  c : Option (List Int)
  random_state : Option Nat
  env_random_state : Option Nat
  buffer : Option (List Transition)
  noise_process : Option Nat
  constraint_buffer : Option Nat
deriving DecidableEq, Repr

/-- Mutable orchestrator state of `SafeExplorerDDPG`: model parameters,
normalizer statistics, mode flags, the rollout state (`total_steps`,
`obs`, `c`), the global PRNG state, the (vectorized) environment's
physical state and random state, the replay buffer, the optional noise
process state, and the optional constraint buffer. -/
structure OState where
  agent : Nat
  safety_layer : Nat
  obsNormStats : Nat
  obsNormReadOnly : Bool
  rewNormStats : Nat
  agentTrainMode : Bool
  total_steps : Nat
  obs : List Int
  c : List Int
  rng : Nat
  envPhys : Nat
  envRng : Nat
  buffer : SafeDDPGBuffer
  noise : Option Nat
  constraintBuffer : Option Nat
deriving DecidableEq, Repr

/-- Collaborator operations (external to the orchestrator core):
agent/safety-layer action selection and update, action-space and noise
sampling, environment stepping/reset, normalizer application and update,
reward normalization, replay-buffer batch sampling, evaluation
environment, and checkpoint-file reading. -/
structure Collab where
  act : Nat → Nat → List Int → List Int → List Int
  action_space_sample : Nat → Nat × Int
  noise_sample : Nat → Nat × Int
  noise_reset : Nat → Nat
  env_step : Nat → Nat → List Int → (Nat × Nat) × StepOut
  env_reset : Nat → Nat → (Nat × Nat) × (List Int × List Int)
  norm_update : Nat → List Int → Nat
  norm_apply : Nat → List Int → List Int
  norm_apply1 : Nat → Int → Int
  rew_norm : Nat → List Int → List Bool → Nat × List Int
  sample_batch : List Transition → Nat → Nat → Nat × List Transition
  agent_update : Nat → List Transition → Nat × List Rat
  eval_act : Nat → Nat → Int → Int → Int
  eval_reset : Nat × Nat → (Nat × Nat) × (Int × EvalInfo)
  eval_step : Nat × Nat → Int → (Nat × Nat) × EvalOut
  load_checkpoint : String → Checkpoint
  constraint_buffer_new : Nat

/-- Static configuration of the orchestrator (constructor keyword
arguments and config fields read by the methods under study). -/
structure Config where
  training : Bool
  pretraining : Bool
  pretrained : Option String
  warm_up_steps : Nat
  rollout_batch_size : Nat
  train_interval : Nat
  train_batch_size : Nat
  max_buffer_size : Nat
  save_interval : Nat
  num_checkpoints : Nat
  eval_interval : Nat
  eval_save_best : Bool
  max_env_steps : Nat
  log_interval : Nat
deriving DecidableEq, Repr

/-- Draws `n` samples from a stateful sampler `f`, threading the RNG
state (models `np.stack([... .sample() for _ in range(n)])`). -/
def sampleN (f : Nat → Nat × Int) : Nat → Nat → Nat × List Int
  | 0, r => (r, [])
  | n+1, r =>
    let p := f r
    let rest := sampleN f n p.1
    (rest.1, p.2 :: rest.2)

/-- Application of the stateful observation normalizer to a batch.
Modelled from the spec: the normalizer updates its running statistics
with the batch and then normalizes, except in read-only mode where the
statistics are left untouched (normalizer sources are not among the
sources; spec sections 4.8 and 7). -/
def normBatch (col : Collab) (ns : Nat) (ro : Bool) (xs : List Int) : Nat × List Int :=
  if ro then (ns, col.norm_apply ns xs)
  else
    let ns2 := col.norm_update ns xs
    (ns2, col.norm_apply ns2 xs)

/-- The `for idx, inf in enumerate(info["n"])` loop of `train_step`
(`safe_ddpg.py:350`): collects `(idx, terminal_observation)` for every
environment whose `terminal_info` carries a truthy `TimeLimit.truncated`
flag.  The first argument is the running enumeration index. -/
def collectTerminal : Nat → List EnvInfoN → List (Nat × Int)
  | _, [] => []
  | i, inf :: rest =>
    match inf.terminal_info with
    | none => collectTerminal (i+1) rest
    | some inff =>
      if inff.TimeLimit_truncated.getD false then
        (i, inff.terminal_observation) :: collectTerminal (i+1) rest
      else
        collectTerminal (i+1) rest

/-- Whether an env's post-step info marks a time-limit truncation. -/
def isTimeTruncated (inf : EnvInfoN) : Bool :=
  match inf.terminal_info with
  | none => false
  | some t => t.TimeLimit_truncated.getD false

/-- Folds `l[idx] := f pair` over index/value pairs; the shape of
the two `for idx, term_ob in zip(terminal_idx, terminal_obs)` loop bodies
at `safe_ddpg.py:364`. -/
def setAllBy (f : Nat × Int → Int) (ps : List (Nat × Int)) (l : List Int) : List Int :=
  ps.foldl (fun acc p => acc.set p.1 (f p)) l

/-- Time-truncation correction block of `train_step`
(`safe_ddpg.py:349`-`367`): renormalizes the collected terminal
observations (when any) and overrides `next_obs` entries with them and
the corresponding `mask` entries with 1.  Returns the updated normalizer
statistics, `true_next_obs` and `true_mask`. -/
def truncCorrect (col : Collab) (ns : Nat) (ro : Bool) (next_obs mask : List Int)
    (infoN : List EnvInfoN) : Nat × List Int × List Int :=
  let terminal := collectTerminal 0 infoN
  let tn := if 0 < terminal.length
            then normBatch col ns ro (terminal.map Prod.snd)
            else (ns, [])
  let pairs := (terminal.map Prod.fst).zip tn.2
  (tn.1, setAllBy Prod.snd pairs next_obs, setAllBy (fun _ => 1) pairs mask)

/-- The gradient-update loop of `train_step` (`safe_ddpg.py:393`-`397`):
runs `n` updates, each sampling one batch from the replay buffer (via
the global RNG) and applying `agent.update`.  Also returns each update's
metric record and the buffer fill level observed at each sample call. -/
def updateLoop (cfg : Config) (col : Collab) : Nat → OState → OState × List (List Rat) × List Nat
  | 0, s => (s, [], [])
  | n+1, s =>
    let size := s.buffer.data.length
    let sb := col.sample_batch s.buffer.data cfg.train_batch_size s.rng
    let au := col.agent_update s.agent sb.2
    let rest := updateLoop cfg col n {s with rng := sb.1, agent := au.1}
    (rest.1, au.2 :: rest.2.1, size :: rest.2.2)

/-- Metric aggregation `results = {k: sum(v)/len(v) for k, v in results.items()}` with
positional metric keys: pointwise average over the per-update metric
records. -/
def avgMetrics (l : List (List Rat)) : List Rat :=
  match l with
  | [] => []
  | m :: _ =>
    (List.range m.length).map
      (fun i => ((l.map (fun ms => ms.getD i 0)).sum) / (l.length : Rat))

/-- Mode switches `self.agent.train()` and `self.obs_normalizer.unset_read_only()` at
the start of `train_step` (`safe_ddpg.py:322`-`323`). -/
def prepState (s : OState) : OState :=
  {s with agentTrainMode := true, obsNormReadOnly := false}

/-- Action selection of `train_step` (`safe_ddpg.py:330`-`341`): random
action-space samples during warm-up, otherwise the deterministic agent
action through the safety projection, plus noise when a noise process is
configured.  Returns the updated state, the action batch, and whether
the warm-up branch was taken. -/
def selectAction (cfg : Config) (col : Collab) (s : OState) : OState × List Int × Bool :=
  if s.total_steps < cfg.warm_up_steps then
    let r := sampleN col.action_space_sample cfg.rollout_batch_size s.rng
    ({s with rng := r.1}, r.2, true)
  else
    let a := col.act s.agent s.safety_layer s.obs s.c
    match s.noise with
    | some np =>
      let r := sampleN col.noise_sample cfg.rollout_batch_size np
      ({s with noise := some r.1}, List.zipWith (fun x y => x + y) a r.2, false)
    | none => (s, a, false)

/-- Intermediate result of `train_step` after the environment step. -/
structure Phase1 where
  st : OState
  obs0 : List Int
  c0 : List Int
  action : List Int
  warm : Bool
  out : StepOut

/-- Prefix of `train_step` up to and including `self.env.step(act)`
(`safe_ddpg.py:322`-`343`). -/
def phase1 (cfg : Config) (col : Collab) (s : OState) : Phase1 :=
  let s0 := prepState s
  let r := selectAction cfg col s0
  let e := col.env_step r.1.envPhys r.1.envRng r.2.1
  { st := {r.1 with envPhys := e.1.1, envRng := e.1.2},
    obs0 := s0.obs, c0 := s0.c, action := r.2.1, warm := r.2.2, out := e.2 }

/-- Intermediate result of `train_step` after normalization and the
time-truncation correction. -/
structure Phase2 where
  st : OState
  p1 : Phase1
  next_obs : List Int
  rew : List Int
  mask : List Int
  true_next_obs : List Int
  true_mask : List Int

/-- Prefix of `train_step` through the truncation-correction block
(`safe_ddpg.py:345`-`367`). -/
def phase2 (cfg : Config) (col : Collab) (s : OState) : Phase2 :=
  let p := phase1 cfg col s
  let n := normBatch col p.st.obsNormStats p.st.obsNormReadOnly p.out.next_obs
  let r := col.rew_norm p.st.rewNormStats p.out.rew p.out.done
  let mask := p.out.done.map (fun d => 1 - (if d then (1 : Int) else 0))
  let tc := truncCorrect col n.1 p.st.obsNormReadOnly n.2 mask p.out.infoN
  { st := {p.st with obsNormStats := tc.1, rewNormStats := r.1},
    p1 := p, next_obs := n.2, rew := r.2, mask := mask,
    true_next_obs := tc.2.1, true_mask := tc.2.2 }

/-- Scalar metrics returned by `train_step` (the wall-clock time entry
is not modelled). -/
structure TrainResults where
  metrics : List Rat
  step : Nat
deriving DecidableEq, Repr

/-- Observable trace of one `train_step` call: which action branch ran,
the chosen action, the transition pushed to the replay buffer, the
buffer fill level at each `buffer.sample` call, and the per-update
metric records. -/
structure StepTrace where
  warm_up_branch : Bool
  action : List Int
  pushed : Transition
  sample_sizes : List Nat
  num_updates : Nat
  updates : List (List Rat)
deriving DecidableEq, Repr

/-- One `train_step` call (`safe_ddpg.py:320`-`401`): rollout, push into
the replay buffer, advance the rollout state and `total_steps`, and run
the gradient-update block when past warm-up on a `train_interval`
multiple. -/
def train_step (cfg : Config) (col : Collab) (s : OState) : OState × TrainResults × StepTrace :=
  let p := phase2 cfg col s
  let tr : Transition :=
    { obs := p.p1.obs0, act := p.p1.action, rew := p.rew,
      next_obs := p.true_next_obs, mask := p.true_mask, c := p.p1.c0 }
  let st := {p.st with
    buffer := p.st.buffer.push tr,
    obs := p.next_obs,
    c := p.p1.out.infoN.map (fun i => i.constraint_values),
    total_steps := p.st.total_steps + cfg.rollout_batch_size}
  let doUp := decide (cfg.warm_up_steps < st.total_steps) &&
              (st.total_steps % cfg.train_interval == 0)
  let up := if doUp then updateLoop cfg col cfg.train_interval st else (st, [], [])
  ( up.1,
    { metrics := avgMetrics up.2.1, step := st.total_steps },
    { warm_up_branch := p.p1.warm, action := p.p1.action, pushed := tr,
      sample_sizes := up.2.2, num_updates := up.2.1.length, updates := up.2.1 } )

/-- Checkpoint writing `save(path, save_buffer)` (`safe_ddpg.py:143`-`172`) as a pure
function from the orchestrator state to the checkpoint record written. -/
def saveCk (cfg : Config) (s : OState) (save_buffer : Bool) : Checkpoint :=
  { agent := s.agent,
    safety_layer := s.safety_layer,
    obs_normalizer := s.obsNormStats,
    reward_normalizer := s.rewNormStats,
    total_steps := if cfg.training then some s.total_steps else none,
    obs := if cfg.training then some s.obs else none,
    c := if cfg.training then some s.c else none,
    random_state := if cfg.training then some s.rng else none,
    env_random_state := if cfg.training then some s.envRng else none,
    buffer := if cfg.training && save_buffer then some s.buffer.data else none,
    noise_process := if cfg.training then s.noise else none,
    constraint_buffer := if cfg.training && cfg.pretraining then s.constraintBuffer else none }

/-- Checkpoint restoring `load(path)` (`safe_ddpg.py:174`-`198`): restores parameters always,
and in training mode the experiment state; a missing required key is a
`KeyError`, modelled as `none`.  The environment's physical state is not
part of the checkpoint and is left as it is. -/
def loadCk (cfg : Config) (s : OState) (ck : Checkpoint) : Option OState :=
  let s1 := {s with agent := ck.agent, safety_layer := ck.safety_layer,
                    obsNormStats := ck.obs_normalizer, rewNormStats := ck.reward_normalizer}
  if cfg.training then
    match ck.total_steps, ck.obs, ck.c, ck.random_state, ck.env_random_state with
    | some ts, some obs, some c, some rs, some ers =>
      let s2 := {s1 with total_steps := ts, obs := obs, c := c, rng := rs, envRng := ers}
      let s3 := match ck.buffer with
        | some bd => {s2 with buffer := {data := bd, maxSize := s2.buffer.maxSize}}
        | none => s2
      let s4 : Option OState := match s3.noise, ck.noise_process with
        | some _, some np => some {s3 with noise := some np}
        | some _, none => none
        | none, _ => some s3
      match s4 with
      | none => none
      | some s5 =>
        if cfg.pretraining then
          match ck.constraint_buffer with
          | some cb => some {s5 with constraintBuffer := some cb}
          | none => none
        else some s5
    | _, _, _, _, _ => none
  else some s1

/-- The assertion message at `safe_ddpg.py:111`. -/
def msgAdaptation : String := "Must provide a pre-trained model for adaptation."

/-- Common tail of `reset` in training mode (`safe_ddpg.py:121`-`129`):
zero `total_steps`, reset the environment, store the normalized initial
observation and the initial constraint values, allocate a fresh empty
replay buffer, and reset the noise process when one is configured. -/
def resetCommon (cfg : Config) (col : Collab) (s : OState) : OState :=
  let sa := {s with total_steps := 0}
  let er := col.env_reset sa.envPhys sa.envRng
  let sb := {sa with envPhys := er.1.1, envRng := er.1.2}
  let n := normBatch col sb.obsNormStats sb.obsNormReadOnly er.2.1
  let sc := {sb with obsNormStats := n.1, obs := n.2, c := er.2.2,
                     buffer := {data := [], maxSize := cfg.max_buffer_size}}
  match sc.noise with
  | some np => {sc with noise := some (col.noise_reset np)}
  | none => sc

/-- Preparation `reset()` (`safe_ddpg.py:104`-`134`).  In training mode, pretraining
allocates a fresh constraint buffer, while adaptation requires a
pre-trained checkpoint path (else the assertion fires) and loads only
the safety-layer parameters from it.  The evaluation-only branch merely
registers statistics trackers. -/
def reset (cfg : Config) (col : Collab) (s : OState) : Except String OState :=
  if cfg.training then
    if cfg.pretraining then
      Except.ok (resetCommon cfg col {s with constraintBuffer := some col.constraint_buffer_new})
    else
      match cfg.pretrained with
      | none => Except.error msgAdaptation
      | some path =>
        let ck := col.load_checkpoint path
        Except.ok (resetCommon cfg col {s with safety_layer := ck.safety_layer})
  else
    Except.ok s

/-- Which checkpoint file a `save` call in the `learn` loop writes. -/
inductive SaveKind where
  | latest
  | intermediate
  | best
deriving DecidableEq, Repr

/-- The checkpoint decisions of one `learn` loop iteration
(`safe_ddpg.py:210`-`239`), as the list of `(kind, save_buffer)` pairs
passed to `save`: the latest/final checkpoint uses the `save_buffer`
default `True`, the step-tagged intermediate checkpoint passes
`save_buffer=False`, and the best-model checkpoint (written when
evaluation ran, best-model saving is enabled and the score improved)
uses the default `True`. -/
def learnSaves (cfg : Config) (total_steps final_step : Nat) (evalImproved : Bool) :
    List (SaveKind × Bool) :=
  (if final_step ≤ total_steps ∨ (cfg.save_interval ≠ 0 ∧ total_steps % cfg.save_interval = 0)
   then [(SaveKind.latest, true)] else [])
  ++ (if cfg.num_checkpoints ≠ 0 ∧ total_steps % (final_step / cfg.num_checkpoints) = 0
      then [(SaveKind.intermediate, false)] else [])
  ++ (if cfg.eval_interval ≠ 0 ∧ total_steps % cfg.eval_interval = 0 ∧
         cfg.pretraining = false ∧ cfg.eval_save_best = true ∧ evalImproved
      then [(SaveKind.best, true)] else [])

/-- Best-score bookkeeping of `learn` (`safe_ddpg.py:234`-`239`):
`eval_best_score = getattr(self, "eval_best_score", -np.infty)` (absent
attribute modelled as `none`, standing for minus infinity) and the
strict-improvement test; returns the new best score and whether
`model_best.pt` was written. -/
def bestStep (eval_save_best : Bool) (best : Option Rat) (score : Rat) : Option Rat × Bool :=
  let improved := match best with
    | none => true
    | some b => decide (b < score)
  if eval_save_best && improved then (some score, true) else (best, false)

/-- Iterates `bestStep` over a sequence of evaluation scores, returning
the per-evaluation "best checkpoint written" flags. -/
def bestTrack (esb : Bool) : Option Rat → List Rat → List Bool
  | _, [] => []
  | best, sc :: rest =>
    let r := bestStep esb best sc
    r.2 :: bestTrack esb r.1 rest

/-- The `while len(ep_returns) < n_episodes` loop of `run`
(`safe_ddpg.py:266`-`285`), made total with a fuel argument: steps the
(aliased) environment with the deterministic projected policy action, on
episode end records the episode return/length and resets the
environment, and renormalizes the observation with the read-only
normalizer. -/
def runLoop (col : Collab) (agent safety nstats : Nat) (n_episodes : Nat) :
    Nat → Nat × Nat → Int → Int → List Rat → List Rat → (Nat × Nat) × List Rat × List Rat
  | 0, e, _, _, rets, lens => (e, rets, lens)
  | fuel+1, e, obs, c, rets, lens =>
    if n_episodes ≤ rets.length then (e, rets, lens)
    else
      let a := col.eval_act agent safety obs c
      let r := col.eval_step e a
      if r.2.done then
        match r.2.info.episode with
        | some ep =>
          let rr := col.eval_reset r.1
          runLoop col agent safety nstats n_episodes fuel rr.1
            (col.norm_apply1 nstats rr.2.1) rr.2.2.constraint_values
            (rets ++ [ep.1]) (lens ++ [ep.2])
        | none => (r.1, rets, lens)
      else
        runLoop col agent safety nstats n_episodes fuel r.1
          (col.norm_apply1 nstats r.2.obs) r.2.info.constraint_values rets lens

/-- Evaluation `run(env, n_episodes)` (`safe_ddpg.py:245`-`297`): puts the agent in
eval mode and the normalizer in read-only mode, defaults `env` to the
training environment when the argument is `none` (aliasing it, so its
state is written back), resets it, and runs the evaluation loop.
Returns the updated orchestrator state and the episode returns and
lengths. -/
def run (col : Collab) (fuel n_episodes : Nat) (s : OState) (envArg : Option (Nat × Nat)) :
    OState × List Rat × List Rat :=
  let s1 := {s with agentTrainMode := false, obsNormReadOnly := true}
  let e0 := match envArg with
    | some e => e
    | none => (s1.envPhys, s1.envRng)
  let rr := col.eval_reset e0
  let lr := runLoop col s1.agent s1.safety_layer s1.obsNormStats n_episodes fuel rr.1
    (col.norm_apply1 s1.obsNormStats rr.2.1) rr.2.2.constraint_values [] []
  match envArg with
  | some _ => (s1, lr.2)
  | none => ({s1 with envPhys := lr.1.1, envRng := lr.1.2}, lr.2)

/-- Iterates `n` successive `train_step` calls. -/
def iterTrain (cfg : Config) (col : Collab) : Nat → OState → OState
  | 0, s => s
  | n+1, s => iterTrain cfg col n (train_step cfg col s).1

/-- The traces of `n` successive `train_step` calls. -/
def tracesOf (cfg : Config) (col : Collab) : Nat → OState → List StepTrace
  | 0, _ => []
  | n+1, s => (train_step cfg col s).2.2 :: tracesOf cfg col n (train_step cfg col s).1

/-- The action sequence chosen over `n` successive `train_step` calls. -/
def actionsOf (cfg : Config) (col : Collab) (n : Nat) (s : OState) : List (List Int) :=
  (tracesOf cfg col n s).map (fun t => t.action)

/-- The renormalized terminal observations computed inside the
truncation-correction block: the observation normalizer (with the
statistics as they stand after normalizing `next_obs`) applied to the
collected raw `terminal_observation`s. -/
def renormalizedTerminalObs (cfg : Config) (col : Collab) (s : OState) : List Int :=
  let p := phase1 cfg col s
  let n := normBatch col p.st.obsNormStats p.st.obsNormReadOnly p.out.next_obs
  (normBatch col n.1 p.st.obsNormReadOnly ((collectTerminal 0 p.out.infoN).map Prod.snd)).2

/-! ### Concrete instances used by witnesses and counterexamples -/

/-- A pre-trained checkpoint path used in witnesses. -/
def pathPre : String := "pretrained/model_latest.pt"

/-- Concrete info entry: episode ended by time-limit truncation. -/
def infoTrunc0 : EnvInfoN :=
  { constraint_values := 3,
    terminal_info := some { TimeLimit_truncated := some true,
                            terminal_observation := 5, constraint_values := 4 } }

/-- Concrete info entry: true termination, no truncation flag. -/
def infoTerm1 : EnvInfoN := { constraint_values := 6, terminal_info := none }

/-- Concrete vectorized step outcome: env 0 time-truncated, env 1 truly
terminated. -/
def stepOut0 : StepOut :=
  { next_obs := [10, 20], rew := [1, 2], done := [true, true],
    infoN := [infoTrunc0, infoTerm1] }

/-- Concrete checkpoint returned by the witness checkpoint reader. -/
def ck99 : Checkpoint :=
  { agent := 7, safety_layer := 99, obs_normalizer := 8, reward_normalizer := 8,
    total_steps := some 55, obs := some [9], c := some [9], random_state := some 1,
    env_random_state := some 2, buffer := some [], noise_process := none,
    constraint_buffer := none }

/-- Concrete collaborators for witnesses. -/
def col0 : Collab :=
  { act := fun _ _ obs _ => obs,
    action_space_sample := fun r => (r + 1, 7),
    noise_sample := fun r => (r + 1, 1),
    noise_reset := fun _ => 0,
    env_step := fun p r _ => ((p + 1, r + 1), stepOut0),
    env_reset := fun p r => ((p, r), ([0, 0], [0, 0])),
    norm_update := fun st _ => st + 1,
    norm_apply := fun _ l => l,
    norm_apply1 := fun _ x => x,
    rew_norm := fun st r _ => (st, r),
    sample_batch := fun data _ r => (r + 1, data),
    agent_update := fun a _ => (a + 1, [(1 : Rat)]),
    eval_act := fun _ _ o _ => o,
    eval_reset := fun e => ((e.1 + 1, e.2 + 1), (0, { constraint_values := 0, episode := none })),
    eval_step := fun e _ => ((e.1 + 1, e.2),
      { obs := 0, rew := 0, done := true,
        info := { constraint_values := 0, episode := some (1, 1) } }),
    load_checkpoint := fun _ => ck99,
    constraint_buffer_new := 0 }

/-- Concrete configuration for witnesses (training, adaptation mode,
two parallel environments, no warm-up, update every step). -/
def cfg0 : Config :=
  { training := true, pretraining := false, pretrained := some pathPre,
    warm_up_steps := 0, rollout_batch_size := 2, train_interval := 1,
    train_batch_size := 1, max_buffer_size := 10, save_interval := 1,
    num_checkpoints := 1, eval_interval := 1, eval_save_best := true,
    max_env_steps := 10, log_interval := 1 }

/-- Concrete orchestrator state for witnesses. -/
def s0 : OState :=
  { agent := 0, safety_layer := 0, obsNormStats := 0, obsNormReadOnly := false,
    rewNormStats := 0, agentTrainMode := false, total_steps := 0, obs := [1, 2],
    c := [0, 0], rng := 0, envPhys := 0, envRng := 0,
    buffer := { data := [], maxSize := 10 }, noise := none, constraintBuffer := none }

/-! ### Auxiliary lemmas -/

theorem sampleN_length (f : Nat → Nat × Int) : ∀ n r, (sampleN f n r).2.length = n
  | 0, _ => rfl
  | n+1, r => by simp [sampleN, sampleN_length f n]

theorem selectAction_preserves (cfg : Config) (col : Collab) (s : OState) :
    (selectAction cfg col s).1.agent = s.agent ∧
    (selectAction cfg col s).1.safety_layer = s.safety_layer ∧
    (selectAction cfg col s).1.obsNormStats = s.obsNormStats ∧
    (selectAction cfg col s).1.obsNormReadOnly = s.obsNormReadOnly ∧
    (selectAction cfg col s).1.rewNormStats = s.rewNormStats ∧
    (selectAction cfg col s).1.total_steps = s.total_steps ∧
    (selectAction cfg col s).1.obs = s.obs ∧
    (selectAction cfg col s).1.c = s.c ∧
    (selectAction cfg col s).1.buffer = s.buffer ∧
    (selectAction cfg col s).1.agentTrainMode = s.agentTrainMode := by
  unfold selectAction
  split
  · simp
  · cases s.noise <;> simp

/-! ### Claim C7 -/

/-- Claim C7: for every call to `run` with a separate evaluation
environment passed as `env`, the orchestrator's training state is
unchanged: `total_steps`, the stored rollout `obs` and `c`, and the
replay-buffer contents are identical before and after the call. -/
theorem run_eval_noninterference (col : Collab) (fuel n : Nat) (s : OState) (e : Nat × Nat) :
    (run col fuel n s (some e)).1.total_steps = s.total_steps ∧
    (run col fuel n s (some e)).1.obs = s.obs ∧
    (run col fuel n s (some e)).1.c = s.c ∧
    (run col fuel n s (some e)).1.buffer = s.buffer := by
  simp [run]

/-! ### Claim C10 -/

/-- Claim C10: when `run` is called with the `env` argument omitted
(`none`), it defaults to the training environment: it resets that
environment and steps it through the evaluation loop, writing the
resulting environment state back into the orchestrator (the concrete
final conjunct exhibits an actual change), while the saved rollout `obs`
and `c` (and `total_steps` and the buffer) are left stale. -/
theorem run_default_env_mutates_training_env (col : Collab) (fuel n : Nat) (s : OState) :
    ((run col fuel n s none).1.obs = s.obs ∧
     (run col fuel n s none).1.c = s.c ∧
     (run col fuel n s none).1.total_steps = s.total_steps ∧
     (run col fuel n s none).1.buffer = s.buffer ∧
     ((run col fuel n s none).1.envPhys, (run col fuel n s none).1.envRng) =
       (runLoop col s.agent s.safety_layer s.obsNormStats n fuel
          (col.eval_reset (s.envPhys, s.envRng)).1
          (col.norm_apply1 s.obsNormStats (col.eval_reset (s.envPhys, s.envRng)).2.1)
          (col.eval_reset (s.envPhys, s.envRng)).2.2.constraint_values [] []).1) ∧
    (run col0 1 1 s0 none).1.envPhys ≠ s0.envPhys := by
  constructor
  · simp [run]
  · decide

/-! ### Claim C2 -/

/-- Claim C2: in training mode, `save` followed by `load` restores the
complete experiment state (agent, safety layer, normalizers,
`total_steps`, `obs`, `c`, global and environment PRNG state, the
replay buffer when saved, and the noise-process state), so resuming from
the loaded state yields exactly the action sequence and state trajectory
of continuing without the save/load round-trip. -/
theorem save_load_roundtrip (cfg : Config) (col : Collab) (s : OState)
    (h : cfg.training = true) (hp : cfg.pretraining = false) :
    loadCk cfg s (saveCk cfg s true) = some s ∧
    (∀ sr, loadCk cfg s (saveCk cfg s true) = some sr →
      ∀ n, actionsOf cfg col n sr = actionsOf cfg col n s ∧
           iterTrain cfg col n sr = iterTrain cfg col n s) := by
  have hrt : loadCk cfg s (saveCk cfg s true) = some s := by
    obtain ⟨ag, sl, ons, onro, rns, atm, ts, obs, c, rng, ep, er, buf, noi, cb⟩ := s
    obtain ⟨bdata, bmax⟩ := buf
    unfold loadCk saveCk
    simp only [h, hp]
    cases noi <;> simp
  refine ⟨hrt, ?_⟩
  intro sr hsr n
  rw [hrt] at hsr
  have hs : s = sr := Option.some.inj hsr
  subst hs
  exact ⟨rfl, rfl⟩

/-- Witness for C2 at a concrete training configuration and state. -/
theorem save_load_roundtrip_witness :
    (cfg0.training = true ∧ cfg0.pretraining = false) ∧
    loadCk cfg0 s0 (saveCk cfg0 s0 true) = some s0 :=
  ⟨⟨rfl, rfl⟩, (save_load_roundtrip cfg0 col0 s0 rfl rfl).1⟩

/-! ### Claim C9 -/

theorem resetCommon_fields (cfg : Config) (col : Collab) (s : OState) :
    (resetCommon cfg col s).agent = s.agent ∧
    (resetCommon cfg col s).safety_layer = s.safety_layer ∧
    (resetCommon cfg col s).rewNormStats = s.rewNormStats ∧
    (resetCommon cfg col s).total_steps = 0 ∧
    (resetCommon cfg col s).buffer = { data := [], maxSize := cfg.max_buffer_size } := by
  unfold resetCommon
  cases hn : s.noise <;> simp [hn]

/-- Claim C9: `reset` in fine-tuning/adaptation mode (training and not
pretraining) fails with the message "Must provide a pre-trained model
for adaptation." when no pre-trained checkpoint path was supplied; when
a path is supplied, only the safety-layer parameters are taken from that
checkpoint: the agent and the reward-normalizer statistics keep their
prior values, `total_steps` is reset to 0 (not restored), and a fresh
empty replay buffer is allocated. -/
theorem reset_adaptation (cfg : Config) (col : Collab) (s : OState)
    (h : cfg.training = true) (hp : cfg.pretraining = false) :
    (cfg.pretrained = none → reset cfg col s = Except.error msgAdaptation) ∧
    (∀ path, cfg.pretrained = some path →
      ∃ s2, reset cfg col s = Except.ok s2 ∧
        s2.safety_layer = (col.load_checkpoint path).safety_layer ∧
        s2.agent = s.agent ∧
        s2.rewNormStats = s.rewNormStats ∧
        s2.total_steps = 0 ∧
        s2.buffer = { data := [], maxSize := cfg.max_buffer_size }) := by
  constructor
  · intro hnone
    unfold reset
    simp [h, hp, hnone]
  · intro path hpath
    refine ⟨resetCommon cfg col {s with safety_layer := (col.load_checkpoint path).safety_layer},
      ?_, ?_, ?_, ?_, ?_, ?_⟩
    · unfold reset
      simp [h, hp, hpath]
    · exact (resetCommon_fields cfg col _).2.1
    · exact (resetCommon_fields cfg col _).1
    · exact (resetCommon_fields cfg col _).2.2.1
    · exact (resetCommon_fields cfg col _).2.2.2.1
    · exact (resetCommon_fields cfg col _).2.2.2.2

/-- Witness for C9: the error fires at a concrete missing path, and with
a path supplied only the safety layer is taken from the checkpoint. -/
theorem reset_adaptation_witness :
    reset { cfg0 with pretrained := none } col0 s0 = Except.error msgAdaptation ∧
    (∃ s2, reset cfg0 col0 s0 = Except.ok s2 ∧
      s2.safety_layer = (col0.load_checkpoint pathPre).safety_layer ∧
      s2.agent = s0.agent ∧
      s2.rewNormStats = s0.rewNormStats ∧
      s2.total_steps = 0 ∧
      s2.buffer = { data := [], maxSize := cfg0.max_buffer_size }) :=
  ⟨(reset_adaptation { cfg0 with pretrained := none } col0 s0 rfl rfl).1 rfl,
   (reset_adaptation cfg0 col0 s0 rfl rfl).2 pathPre rfl⟩

/-! ### Claim C5 (corrected) -/

/-- Counterexample to claim C5 as stated: in the `learn` loop the
best-model checkpoint is also written with the `save_buffer` default
`True`, so a checkpoint other than the latest/final one does contain the
replay buffer. -/
theorem learn_best_checkpoint_contains_buffer :
    (SaveKind.best, true) ∈ learnSaves cfg0 2 10 true ∧
    (saveCk cfg0 s0 true).buffer ≠ none ∧
    SaveKind.best ≠ SaveKind.latest := by
  refine ⟨by decide, by decide, by decide⟩

/-- Claim C5 (amended): among the checkpoints written by the `learn`
loop, exactly the step-tagged intermediate ones are saved with
`save_buffer = False`; the latest/final and best-model checkpoints are
saved with the buffer, and a checkpoint's `buffer` field is present iff
it was saved in training mode with `save_buffer = True`. -/
theorem learn_buffer_only_intermediate_dropped (cfg : Config) (ts fs : Nat) (imp : Bool)
    (k : SaveKind) (b : Bool) (s : OState)
    (hmem : (k, b) ∈ learnSaves cfg ts fs imp) :
    (b = false ↔ k = SaveKind.intermediate) ∧
    (saveCk cfg s b).buffer = (if cfg.training && b then some s.buffer.data else none) := by
  refine ⟨?_, rfl⟩
  unfold learnSaves at hmem
  simp only [List.mem_append] at hmem
  rcases hmem with (hmem | hmem) | hmem <;>
    (split at hmem <;> simp_all)

/-- Witness for the amended C5 at a concrete intermediate checkpoint. -/
theorem learn_buffer_only_intermediate_dropped_witness :
    ((SaveKind.intermediate, false) ∈ learnSaves cfg0 10 10 true) ∧
    ((false = false ↔ SaveKind.intermediate = SaveKind.intermediate) ∧
     (saveCk cfg0 s0 false).buffer =
       (if cfg0.training && false then some s0.buffer.data else none)) :=
  ⟨by decide,
   learn_buffer_only_intermediate_dropped cfg0 10 10 true SaveKind.intermediate false s0 (by decide)⟩

/-! ### Claim C3 -/

theorem updateLoop_lengths (cfg : Config) (col : Collab) :
    ∀ n s, (updateLoop cfg col n s).2.1.length = n ∧ (updateLoop cfg col n s).2.2.length = n
  | 0, _ => ⟨rfl, rfl⟩
  | n+1, s => by
    have IH := updateLoop_lengths cfg col n
    simp [updateLoop, (IH _).1, (IH _).2]

theorem phase2_total_steps (cfg : Config) (col : Collab) (s : OState) :
    (phase2 cfg col s).st.total_steps = s.total_steps := by
  obtain ⟨h1, h2, h3, h4, h5, h6, h7, h8, h9, h10⟩ :=
    selectAction_preserves cfg col (prepState s)
  simp [phase2, phase1, prepState] at h6 ⊢
  simpa [prepState] using h6

/-- The number of gradient updates (and of buffer-sample calls) run by
one `train_step`, as a function of the post-advance step counter. -/
theorem train_step_upd_counts (cfg : Config) (col : Collab) (s : OState) :
    (train_step cfg col s).2.2.num_updates =
      (if decide (cfg.warm_up_steps < s.total_steps + cfg.rollout_batch_size) &&
          ((s.total_steps + cfg.rollout_batch_size) % cfg.train_interval == 0)
       then cfg.train_interval else 0) ∧
    (train_step cfg col s).2.2.sample_sizes.length =
      (if decide (cfg.warm_up_steps < s.total_steps + cfg.rollout_batch_size) &&
          ((s.total_steps + cfg.rollout_batch_size) % cfg.train_interval == 0)
       then cfg.train_interval else 0) := by
  have hts := phase2_total_steps cfg col s
  unfold train_step
  dsimp only
  rw [hts]
  split
  · exact ⟨(updateLoop_lengths cfg col _ _).1, (updateLoop_lengths cfg col _ _).2⟩
  · exact ⟨rfl, rfl⟩

/-- Claim C3: gradient updates run exactly when, after `total_steps` has
been advanced by the rollout batch size, the counter is strictly past
the warm-up threshold and is an exact multiple of `train_interval`; then
exactly `train_interval` updates run, each with its own buffer-sample
call, and the returned metrics are the per-update metrics averaged; on
any other step zero updates run. -/
theorem train_step_update_cadence (cfg : Config) (col : Collab) (s : OState)
    (_hti : 0 < cfg.train_interval) :
    ((cfg.warm_up_steps < s.total_steps + cfg.rollout_batch_size ∧
      (s.total_steps + cfg.rollout_batch_size) % cfg.train_interval = 0) →
      (train_step cfg col s).2.2.num_updates = cfg.train_interval ∧
      (train_step cfg col s).2.2.sample_sizes.length = cfg.train_interval) ∧
    (¬(cfg.warm_up_steps < s.total_steps + cfg.rollout_batch_size ∧
       (s.total_steps + cfg.rollout_batch_size) % cfg.train_interval = 0) →
      (train_step cfg col s).2.2.num_updates = 0) ∧
    (train_step cfg col s).2.1.metrics = avgMetrics (train_step cfg col s).2.2.updates := by
  obtain ⟨h1, h2⟩ := train_step_upd_counts cfg col s
  refine ⟨?_, ?_, rfl⟩
  · rintro ⟨ha, hb⟩
    rw [h1, h2]
    simp [ha, hb]
  · intro hc
    rw [h1]
    split
    · rename_i hcc
      exact absurd (by simpa [Bool.and_eq_true, decide_eq_true_eq, beq_iff_eq] using hcc) hc
    · rfl

/-- Witness for C3: with no warm-up and `train_interval = 1`, the first
step (advancing the counter to 2) runs exactly one update. -/
theorem train_step_update_cadence_witness :
    0 < cfg0.train_interval ∧
    (train_step cfg0 col0 s0).2.2.num_updates = cfg0.train_interval :=
  ⟨by decide,
   ((train_step_update_cadence cfg0 col0 s0 (by decide)).1 ⟨by decide, by decide⟩).1⟩

/-! ### Claim C4 -/

/-- Claim C4: when `total_steps` is strictly below the warm-up threshold
at the start of the step, `train_step` samples one action per parallel
environment from the action-space sampler (the warm-up branch, which
never consults the policy); otherwise the action is the agent's
deterministic safety-projected action from `(obs, c)`, with exploration
noise added exactly when a noise process is configured. -/
theorem train_step_warmup_action (cfg : Config) (col : Collab) (s : OState) :
    (s.total_steps < cfg.warm_up_steps →
      (train_step cfg col s).2.2.warm_up_branch = true ∧
      (train_step cfg col s).2.2.action =
        (sampleN col.action_space_sample cfg.rollout_batch_size s.rng).2 ∧
      (train_step cfg col s).2.2.action.length = cfg.rollout_batch_size) ∧
    (cfg.warm_up_steps ≤ s.total_steps →
      (train_step cfg col s).2.2.warm_up_branch = false ∧
      (s.noise = none →
        (train_step cfg col s).2.2.action = col.act s.agent s.safety_layer s.obs s.c) ∧
      (∀ np, s.noise = some np →
        (train_step cfg col s).2.2.action =
          List.zipWith (fun x y => x + y) (col.act s.agent s.safety_layer s.obs s.c)
            (sampleN col.noise_sample cfg.rollout_batch_size np).2)) := by
  have haction : (train_step cfg col s).2.2.action = (selectAction cfg col (prepState s)).2.1 := rfl
  have hwarm : (train_step cfg col s).2.2.warm_up_branch =
      (selectAction cfg col (prepState s)).2.2 := rfl
  constructor
  · intro h
    rw [haction, hwarm]
    refine ⟨?_, ?_, ?_⟩
    · simp [selectAction, prepState, h]
    · simp [selectAction, prepState, h]
    · simp [selectAction, prepState, h, sampleN_length]
  · intro h
    have hnl : ¬ s.total_steps < cfg.warm_up_steps := Nat.not_lt.mpr h
    rw [haction, hwarm]
    refine ⟨?_, ?_, ?_⟩
    · simp only [selectAction, prepState]
      simp only [hnl, if_false]
      cases s.noise <;> simp
    · intro hn
      simp only [selectAction, prepState]
      simp [hnl, hn]
    · intro np hn
      simp only [selectAction, prepState]
      simp [hnl, hn]

/-- Witness for C4: both the warm-up branch (with the threshold raised to
5) and the policy branch (threshold 0) at the concrete state. -/
theorem train_step_warmup_action_witness :
    (s0.total_steps < ({cfg0 with warm_up_steps := 5} : Config).warm_up_steps ∧
     (train_step {cfg0 with warm_up_steps := 5} col0 s0).2.2.warm_up_branch = true ∧
     (train_step {cfg0 with warm_up_steps := 5} col0 s0).2.2.action =
       (sampleN col0.action_space_sample 2 s0.rng).2) ∧
    (cfg0.warm_up_steps ≤ s0.total_steps ∧
     (train_step cfg0 col0 s0).2.2.warm_up_branch = false ∧
     (train_step cfg0 col0 s0).2.2.action = col0.act s0.agent s0.safety_layer s0.obs s0.c) := by
  have hw := (train_step_warmup_action {cfg0 with warm_up_steps := 5} col0 s0).1 (by decide)
  have he := (train_step_warmup_action cfg0 col0 s0).2 (by decide)
  exact ⟨⟨by decide, hw.1, hw.2.1⟩, ⟨by decide, he.1, he.2.1 rfl⟩⟩

/-! ### Claim C8 -/

theorem SafeDDPGBuffer.push_ne_nil (b : SafeDDPGBuffer) (t : Transition) :
    (b.push t).data ≠ [] := by
  unfold SafeDDPGBuffer.push
  split <;> simp

theorem updateLoop_sizes (cfg : Config) (col : Collab) :
    ∀ n s sz, sz ∈ (updateLoop cfg col n s).2.2 → sz = s.buffer.data.length
  | 0, s, sz, h => by simp [updateLoop] at h
  | n+1, s, sz, h => by
    simp only [updateLoop, List.mem_cons] at h
    rcases h with h | h
    · exact h
    · exact updateLoop_sizes cfg col n
        {s with rng := (col.sample_batch s.buffer.data cfg.train_batch_size s.rng).1,
                agent := (col.agent_update s.agent
                  (col.sample_batch s.buffer.data cfg.train_batch_size s.rng).2).1} sz h

theorem train_step_sample_sizes_pos (cfg : Config) (col : Collab) (s : OState) :
    ∀ sz ∈ (train_step cfg col s).2.2.sample_sizes, 0 < sz := by
  intro sz hsz
  unfold train_step at hsz
  dsimp only at hsz
  split at hsz
  · have hsz2 := updateLoop_sizes cfg col cfg.train_interval _ sz hsz
    rw [hsz2]
    apply List.length_pos.mpr
    apply SafeDDPGBuffer.push_ne_nil
  · simp at hsz

theorem tracesOf_sample_sizes_pos (cfg : Config) (col : Collab) :
    ∀ (n : Nat) (s : OState), ∀ tr ∈ tracesOf cfg col n s, ∀ sz ∈ tr.sample_sizes, 0 < sz
  | 0, s => by simp [tracesOf]
  | n+1, s => by
    intro tr htr
    simp only [tracesOf, List.mem_cons] at htr
    rcases htr with rfl | htr
    · exact train_step_sample_sizes_pos cfg col s
    · exact tracesOf_sample_sizes_pos cfg col n _ tr htr

/-- Claim C8: starting from `reset` (which allocates a fresh, empty
replay buffer), along every sequence of `train_step` calls the replay
buffer is non-empty whenever `buffer.sample` is invoked: each step
pushes its transition before the update block, so every sample call
observes a positive fill level. -/
theorem replay_buffer_nonempty_at_sample (cfg : Config) (col : Collab) (s s0 : OState) (n : Nat)
    (htrain : cfg.training = true) (hreset : reset cfg col s = Except.ok s0) :
    s0.buffer.data = [] ∧
    ∀ tr ∈ tracesOf cfg col n s0, ∀ sz ∈ tr.sample_sizes, 0 < sz := by
  refine ⟨?_, tracesOf_sample_sizes_pos cfg col n s0⟩
  unfold reset at hreset
  cases hpt : cfg.pretraining with
  | true =>
    simp only [htrain, hpt, if_true] at hreset
    have hs0 := Except.ok.inj hreset
    rw [← hs0]
    rw [(resetCommon_fields cfg col _).2.2.2.2]
  | false =>
    cases hpd : cfg.pretrained with
    | none => simp [htrain, hpt, hpd] at hreset
    | some path =>
      simp only [htrain, hpt, hpd, if_true, Bool.false_eq_true, if_false] at hreset
      have hs0 := Except.ok.inj hreset
      rw [← hs0]
      rw [(resetCommon_fields cfg col _).2.2.2.2]

/-- Witness for C8: a concrete reset and two training steps in which
sampling occurs, every observed fill level being positive. -/
theorem replay_buffer_nonempty_at_sample_witness :
    (cfg0.training = true ∧ reset cfg0 col0 s0 = Except.ok (resetCommon cfg0 col0
      {s0 with safety_layer := ck99.safety_layer})) ∧
    ((resetCommon cfg0 col0 {s0 with safety_layer := ck99.safety_layer}).buffer.data = [] ∧
     ∀ tr ∈ tracesOf cfg0 col0 2 (resetCommon cfg0 col0 {s0 with safety_layer := ck99.safety_layer}),
       ∀ sz ∈ tr.sample_sizes, 0 < sz) :=
  ⟨⟨rfl, rfl⟩,
   replay_buffer_nonempty_at_sample cfg0 col0 s0 _ 2 rfl rfl⟩

/-! ### Claim C6 -/

theorem cons_prefix_lt_iff (sc si : Rat) (rest : List Rat) (i : Nat) :
    (∀ j sj, j < i+1 → (sc :: rest)[j]? = some sj → sj < si) ↔
    (sc < si ∧ ∀ j sj, j < i → rest[j]? = some sj → sj < si) := by
  constructor
  · intro h
    refine ⟨h 0 sc (Nat.succ_pos i) (by simp), ?_⟩
    intro j sj hj hsj
    exact h (j+1) sj (Nat.succ_lt_succ hj) (by simpa using hsj)
  · rintro ⟨h0, h⟩ j sj hj hsj
    match j with
    | 0 =>
      have : sc = sj := by simpa using hsj
      rw [← this]
      exact h0
    | j+1 =>
      exact h j sj (Nat.lt_of_succ_lt_succ hj) (by simpa using hsj)

theorem bestTrack_prefix_max : ∀ (scores : List Rat) (best : Option Rat) (i : Nat) (si : Rat),
    scores[i]? = some si →
    ((bestTrack true best scores)[i]? = some true ↔
      ((∀ b, best = some b → b < si) ∧
       ∀ j sj, j < i → scores[j]? = some sj → sj < si))
  | [], _, i, si, hs => by simp at hs
  | sc :: rest, best, 0, si, hs => by
    have hsc : sc = si := by simpa using hs
    subst hsc
    cases best with
    | none => simp [bestTrack, bestStep]
    | some b =>
      by_cases hb : b < sc
      · simp [bestTrack, bestStep, hb]
      · simp [bestTrack, bestStep, hb]
  | sc :: rest, best, i+1, si, hs => by
    have hs' : rest[i]? = some si := by simpa using hs
    have IH := bestTrack_prefix_max rest ((bestStep true best sc).1) i si hs'
    have hcons : (bestTrack true best (sc :: rest))[i+1]? =
        (bestTrack true (bestStep true best sc).1 rest)[i]? := by
      rw [show bestTrack true best (sc :: rest) =
            (bestStep true best sc).2 :: bestTrack true (bestStep true best sc).1 rest from rfl]
      exact List.getElem?_cons_succ
    rw [hcons, IH, cons_prefix_lt_iff]
    cases best with
    | none =>
      have hd : bestStep true none sc = (some sc, true) := by simp [bestStep]
      rw [hd]
      constructor
      · rintro ⟨h1, h2⟩
        exact ⟨(fun b hb => nomatch hb), h1 sc rfl, h2⟩
      · rintro ⟨h0, h1, h2⟩
        refine ⟨?_, h2⟩
        intro b hb
        injection hb with hb
        rw [← hb]
        exact h1
    | some b0 =>
      by_cases hb : b0 < sc
      · have hd : bestStep true (some b0) sc = (some sc, true) := by simp [bestStep, hb]
        rw [hd]
        constructor
        · rintro ⟨h1, h2⟩
          have hscsi : sc < si := h1 sc rfl
          refine ⟨?_, hscsi, h2⟩
          intro b hbb
          injection hbb with hbb
          rw [← hbb]
          linarith
        · rintro ⟨h0, h1, h2⟩
          refine ⟨?_, h2⟩
          intro b hbb
          injection hbb with hbb
          rw [← hbb]
          exact h1
      · have hd : bestStep true (some b0) sc = (some b0, false) := by simp [bestStep, hb]
        rw [hd]
        have hle : sc ≤ b0 := le_of_not_lt hb
        constructor
        · rintro ⟨h1, h2⟩
          have hbsi : b0 < si := h1 b0 rfl
          refine ⟨?_, by linarith, h2⟩
          intro b hbb
          injection hbb with hbb
          rw [← hbb]
          exact hbsi
        · rintro ⟨h0, h1, h2⟩
          refine ⟨?_, h2⟩
          intro b hbb
          injection hbb with hbb
          rw [← hbb]
          exact h0 b0 rfl

/-- Claim C6: with best-model saving enabled, across the sequence of
evaluation scores produced during `learn`, the best-model checkpoint is
written at evaluation `i` if and only if that score strictly exceeds
every previously seen score (the running best starts at minus
infinity, modelled by the absent attribute `none`). -/
theorem best_model_saved_iff_strict_improvement (scores : List Rat) (i : Nat) (si : Rat)
    (hs : scores[i]? = some si) :
    ((bestTrack true none scores)[i]? = some true ↔
      ∀ j sj, j < i → scores[j]? = some sj → sj < si) := by
  have h := bestTrack_prefix_max scores none i si hs
  simpa using h

/-- Witness for C6 on the concrete score sequence `[1, 3, 2, 5]`: the
fourth evaluation strictly exceeds all prior scores and writes the best
checkpoint. -/
theorem best_model_saved_iff_strict_improvement_witness :
    (([1, 3, 2, 5] : List Rat)[3]? = some 5) ∧
    (bestTrack true none [1, 3, 2, 5])[3]? = some true :=
  ⟨rfl, (best_model_saved_iff_strict_improvement [1, 3, 2, 5] 3 5 rfl).mpr (by
    intro j sj hj hsj
    interval_cases j <;> simp_all <;> linarith)⟩

/-! ### Claim C1 -/

theorem normBatch_length (col : Collab)
    (hna : ∀ st l, (col.norm_apply st l).length = l.length)
    (ns : Nat) (ro : Bool) (xs : List Int) :
    (normBatch col ns ro xs).2.length = xs.length := by
  unfold normBatch
  split <;> simp [hna]

theorem setAllBy_getElem?_not_mem (f : Nat × Int → Int) :
    ∀ (ps : List (Nat × Int)) (l : List Int) (j : Nat),
      (∀ p ∈ ps, p.1 ≠ j) → (setAllBy f ps l)[j]? = l[j]?
  | [], _, _, _ => rfl
  | p :: ps, l, j, h => by
    have hp : p.1 ≠ j := h p (List.mem_cons_self p ps)
    have hrec := setAllBy_getElem?_not_mem f ps (l.set p.1 (f p)) j
      (fun q hq => h q (List.mem_cons_of_mem p hq))
    calc (setAllBy f (p :: ps) l)[j]?
        = (setAllBy f ps (l.set p.1 (f p)))[j]? := rfl
      _ = (l.set p.1 (f p))[j]? := hrec
      _ = l[j]? := List.getElem?_set_ne hp

theorem setAllBy_getElem?_mem (f : Nat × Int → Int) :
    ∀ (ps : List (Nat × Int)) (l : List Int) (j : Nat) (v : Int),
      List.Pairwise (fun a b : Nat × Int => a.1 ≠ b.1) ps → (j, v) ∈ ps →
      j < l.length → (setAllBy f ps l)[j]? = some (f (j, v))
  | [], _, _, _, _, hmem, _ => by simp at hmem
  | p :: ps, l, j, v, hpw, hmem, hlen => by
    rcases List.mem_cons.mp hmem with heq | hmem2
    · have hne : ∀ q ∈ ps, q.1 ≠ j := by
        intro q hq
        have h2 := (List.pairwise_cons.mp hpw).1 q hq
        rw [← heq] at h2
        exact fun hqe => h2 hqe.symm
      calc (setAllBy f (p :: ps) l)[j]?
          = (setAllBy f ps (l.set p.1 (f p)))[j]? := rfl
        _ = (l.set p.1 (f p))[j]? := setAllBy_getElem?_not_mem f ps _ j hne
        _ = some (f (j, v)) := by
            rw [← heq]
            exact List.getElem?_set_self hlen
    · have hlen2 : j < (l.set p.1 (f p)).length := by simpa using hlen
      exact setAllBy_getElem?_mem f ps (l.set p.1 (f p)) j v
        (List.pairwise_cons.mp hpw).2 hmem2 hlen2

theorem collectTerminal_ge : ∀ (l : List EnvInfoN) (i : Nat) (p : Nat × Int),
    p ∈ collectTerminal i l → i ≤ p.1
  | [], _, _, h => by simp [collectTerminal] at h
  | inf :: rest, i, p, h => by
    cases hti : inf.terminal_info with
    | none =>
      simp only [collectTerminal, hti] at h
      have := collectTerminal_ge rest (i+1) p h
      omega
    | some t0 =>
      by_cases hf : t0.TimeLimit_truncated.getD false
      · simp only [collectTerminal, hti, if_pos hf] at h
        rcases List.mem_cons.mp h with heq | h2
        · subst heq
          exact Nat.le_refl i
        · have := collectTerminal_ge rest (i+1) p h2
          omega
      · simp only [collectTerminal, hti, if_neg hf] at h
        have := collectTerminal_ge rest (i+1) p h
        omega

theorem collectTerminal_pairwise : ∀ (l : List EnvInfoN) (i : Nat),
    List.Pairwise (fun a b : Nat × Int => a.1 ≠ b.1) (collectTerminal i l)
  | [], _ => by simp [collectTerminal]
  | inf :: rest, i => by
    cases hti : inf.terminal_info with
    | none =>
      simpa only [collectTerminal, hti] using collectTerminal_pairwise rest (i+1)
    | some t0 =>
      by_cases hf : t0.TimeLimit_truncated.getD false
      · simp only [collectTerminal, hti, if_pos hf]
        refine List.Pairwise.cons ?_ (collectTerminal_pairwise rest (i+1))
        intro q hq
        have hge := collectTerminal_ge rest (i+1) q hq
        show i ≠ q.1
        omega
      · simpa only [collectTerminal, hti, if_neg hf] using collectTerminal_pairwise rest (i+1)

theorem collectTerminal_getElem_of_truncated :
    ∀ (l : List EnvInfoN) (i j : Nat) (inf : EnvInfoN) (t : TermInfo),
      l[j]? = some inf → inf.terminal_info = some t →
      t.TimeLimit_truncated.getD false = true →
      ∃ k : Nat, (collectTerminal i l)[k]? = some (i + j, t.terminal_observation)
  | [], _, j, _, _, h, _, _ => by simp at h
  | inf0 :: rest, i, 0, inf, t, h, ht, hf => by
    have he : inf0 = inf := by simpa using h
    subst he
    refine ⟨0, ?_⟩
    simp [collectTerminal, ht, hf]
  | inf0 :: rest, i, j+1, inf, t, h, ht, hf => by
    have h2 : rest[j]? = some inf := by simpa using h
    obtain ⟨k, hk⟩ := collectTerminal_getElem_of_truncated rest (i+1) j inf t h2 ht hf
    have harith : i + (j + 1) = (i + 1) + j := by omega
    cases hti : inf0.terminal_info with
    | none =>
      refine ⟨k, ?_⟩
      simp only [collectTerminal, hti]
      rw [harith]
      exact hk
    | some t0 =>
      by_cases hf0 : t0.TimeLimit_truncated.getD false
      · refine ⟨k + 1, ?_⟩
        simp only [collectTerminal, hti, if_pos hf0, List.getElem?_cons_succ]
        rw [harith]
        exact hk
      · refine ⟨k, ?_⟩
        simp only [collectTerminal, hti, if_neg hf0]
        rw [harith]
        exact hk

theorem collectTerminal_not_truncated :
    ∀ (l : List EnvInfoN) (i j : Nat) (inf : EnvInfoN),
      l[j]? = some inf → isTimeTruncated inf = false →
      ∀ p ∈ collectTerminal i l, p.1 ≠ i + j
  | [], _, _, _, h, _ => by simp at h
  | inf0 :: rest, i, 0, inf, h, hf => by
    have he : inf0 = inf := by simpa using h
    subst he
    intro p hp
    have hp2 : p ∈ collectTerminal (i+1) rest := by
      unfold isTimeTruncated at hf
      cases hti : inf0.terminal_info with
      | none => simpa [collectTerminal, hti] using hp
      | some t0 =>
        simp only [hti] at hf
        simpa [collectTerminal, hti, hf] using hp
    have := collectTerminal_ge rest (i+1) p hp2
    omega
  | inf0 :: rest, i, j+1, inf, h, hf => by
    intro p hp
    have h2 : rest[j]? = some inf := by simpa using h
    have IH := collectTerminal_not_truncated rest (i+1) j inf h2 hf
    cases hti : inf0.terminal_info with
    | none =>
      have hp2 : p ∈ collectTerminal (i+1) rest := by
        simpa [collectTerminal, hti] using hp
      have := IH p hp2
      omega
    | some t0 =>
      by_cases hf0 : t0.TimeLimit_truncated.getD false
      · have hp2 : p = (i, t0.terminal_observation) ∨ p ∈ collectTerminal (i+1) rest := by
          simpa [collectTerminal, hti, hf0] using hp
        rcases hp2 with rfl | hp2
        · show i ≠ i + (j+1)
          omega
        · have := IH p hp2
          omega
      · have hp2 : p ∈ collectTerminal (i+1) rest := by
          simpa [collectTerminal, hti, hf0] using hp
        have := IH p hp2
        omega

theorem zip_pairwise_firsts : ∀ (ps : List (Nat × Int)) (vs : List Int),
    List.Pairwise (fun a b : Nat × Int => a.1 ≠ b.1) ps →
    List.Pairwise (fun a b : Nat × Int => a.1 ≠ b.1) ((ps.map Prod.fst).zip vs)
  | [], vs, _ => by simp
  | p :: ps, [], _ => by simp
  | p :: ps, v :: vs, h => by
    obtain ⟨h1, h2⟩ := List.pairwise_cons.mp h
    simp only [List.map_cons, List.zip_cons_cons]
    refine List.Pairwise.cons ?_ (zip_pairwise_firsts ps vs h2)
    rintro ⟨a, b⟩ hq
    have ha : a ∈ ps.map Prod.fst := (List.of_mem_zip hq).1
    obtain ⟨p2, hp2, hfst⟩ := List.mem_map.mp ha
    show p.1 ≠ a
    rw [← hfst]
    exact h1 p2 hp2

/-- Behaviour of the truncation-correction block: at a truncated index
the mask entry becomes 1 and the next-obs entry becomes the
corresponding renormalized terminal observation; at a non-truncated
index both entries are untouched. -/
theorem truncCorrect_spec (col : Collab) (ns : Nat) (ro : Bool)
    (next_obs mask : List Int) (infoN : List EnvInfoN) (idx : Nat) (inf : EnvInfoN)
    (hna : ∀ st l, (col.norm_apply st l).length = l.length)
    (hlo : next_obs.length = infoN.length)
    (hlm : mask.length = infoN.length)
    (hinf : infoN[idx]? = some inf) :
    (∀ t, inf.terminal_info = some t → t.TimeLimit_truncated.getD false = true →
      ((truncCorrect col ns ro next_obs mask infoN).2.2)[idx]? = some 1 ∧
      ∃ k : Nat, (collectTerminal 0 infoN)[k]? = some (idx, t.terminal_observation) ∧
        ((truncCorrect col ns ro next_obs mask infoN).2.1)[idx]? =
          ((normBatch col ns ro ((collectTerminal 0 infoN).map Prod.snd)).2)[k]? ∧
        (((normBatch col ns ro ((collectTerminal 0 infoN).map Prod.snd)).2)[k]?).isSome
          = true) ∧
    (isTimeTruncated inf = false →
      ((truncCorrect col ns ro next_obs mask infoN).2.2)[idx]? = mask[idx]? ∧
      ((truncCorrect col ns ro next_obs mask infoN).2.1)[idx]? = next_obs[idx]?) := by
  obtain ⟨hidx, -⟩ := List.getElem?_eq_some_iff.mp hinf
  constructor
  · intro t ht hf
    obtain ⟨k, hk0⟩ := collectTerminal_getElem_of_truncated infoN 0 idx inf t hinf ht hf
    have hk : (collectTerminal 0 infoN)[k]? = some (idx, t.terminal_observation) := by
      simpa using hk0
    obtain ⟨hkl, -⟩ := List.getElem?_eq_some_iff.mp hk
    have hpos : 0 < (collectTerminal 0 infoN).length :=
      Nat.lt_of_le_of_lt (Nat.zero_le k) hkl
    have hrl : (normBatch col ns ro ((collectTerminal 0 infoN).map Prod.snd)).2.length
        = (collectTerminal 0 infoN).length := by
      rw [normBatch_length col hna, List.length_map]
    have hkk : k < (normBatch col ns ro ((collectTerminal 0 infoN).map Prod.snd)).2.length := by
      rw [hrl]
      exact hkl
    have hv : (normBatch col ns ro ((collectTerminal 0 infoN).map Prod.snd)).2[k]? =
        some ((normBatch col ns ro ((collectTerminal 0 infoN).map Prod.snd)).2[k]) :=
      List.getElem?_eq_getElem hkk
    have hfst : ((collectTerminal 0 infoN).map Prod.fst)[k]? = some idx := by
      rw [List.getElem?_map, hk]
      rfl
    have hpairk : (((collectTerminal 0 infoN).map Prod.fst).zip
        (normBatch col ns ro ((collectTerminal 0 infoN).map Prod.snd)).2)[k]? =
        some (idx, (normBatch col ns ro ((collectTerminal 0 infoN).map Prod.snd)).2[k]) :=
      List.getElem?_zip_eq_some.mpr ⟨hfst, hv⟩
    have hmem := List.getElem?_mem hpairk
    have hpw := zip_pairwise_firsts (collectTerminal 0 infoN)
      (normBatch col ns ro ((collectTerminal 0 infoN).map Prod.snd)).2
      (collectTerminal_pairwise infoN 0)
    have hmask := setAllBy_getElem?_mem (fun _ => 1) _ mask idx _ hpw hmem
      (by rw [hlm]; exact hidx)
    have hnext := setAllBy_getElem?_mem Prod.snd _ next_obs idx _ hpw hmem
      (by rw [hlo]; exact hidx)
    refine ⟨?_, k, hk, ?_, ?_⟩
    · show (setAllBy (fun _ => 1)
        (((collectTerminal 0 infoN).map Prod.fst).zip
          (if 0 < (collectTerminal 0 infoN).length
           then normBatch col ns ro ((collectTerminal 0 infoN).map Prod.snd)
           else (ns, [])).2) mask)[idx]? = some 1
      rw [if_pos hpos]
      simpa using hmask
    · show (setAllBy Prod.snd
        (((collectTerminal 0 infoN).map Prod.fst).zip
          (if 0 < (collectTerminal 0 infoN).length
           then normBatch col ns ro ((collectTerminal 0 infoN).map Prod.snd)
           else (ns, [])).2) next_obs)[idx]? =
        ((normBatch col ns ro ((collectTerminal 0 infoN).map Prod.snd)).2)[k]?
      rw [if_pos hpos, hnext]
      exact hv.symm
    · rw [hv]
      rfl
  · intro hnt
    have hnot : ∀ p ∈ collectTerminal 0 infoN, p.1 ≠ idx := by
      have h := collectTerminal_not_truncated infoN 0 idx inf hinf hnt
      simpa using h
    have hnotp : ∀ (vs : List Int),
        ∀ p ∈ ((collectTerminal 0 infoN).map Prod.fst).zip vs, p.1 ≠ idx := by
      intro vs
      rintro ⟨a, b⟩ hq
      have ha : a ∈ (collectTerminal 0 infoN).map Prod.fst := (List.of_mem_zip hq).1
      obtain ⟨p2, hp2, hfst⟩ := List.mem_map.mp ha
      show a ≠ idx
      rw [← hfst]
      exact hnot p2 hp2
    exact ⟨setAllBy_getElem?_not_mem (fun _ => 1) _ mask idx (hnotp _),
           setAllBy_getElem?_not_mem Prod.snd _ next_obs idx (hnotp _)⟩

/-- Claim C1: in `train_step`, for every parallel environment whose
post-step info carries a `terminal_info` with a truthy
`TimeLimit.truncated` flag, the transition pushed to the replay buffer
has `mask = 1` at that index and `next_obs` equal to the renormalized
`terminal_observation` taken from info (position `k` of the
renormalized terminal batch, whose raw entry is this environment's
`terminal_observation`), not the normalized post-reset observation; for
an environment whose info does not mark a truncation, the pushed mask
equals `1 - done` at that index. -/
theorem train_step_truncation_correction (cfg : Config) (col : Collab) (s : OState)
    (idx : Nat) (inf : EnvInfoN)
    (hna : ∀ st l, (col.norm_apply st l).length = l.length)
    (hlo : (phase1 cfg col s).out.next_obs.length = (phase1 cfg col s).out.infoN.length)
    (hld : (phase1 cfg col s).out.done.length = (phase1 cfg col s).out.infoN.length)
    (hinf : (phase1 cfg col s).out.infoN[idx]? = some inf) :
    (∀ t, inf.terminal_info = some t → t.TimeLimit_truncated.getD false = true →
      ((train_step cfg col s).2.2.pushed.mask)[idx]? = some 1 ∧
      ∃ k : Nat, (collectTerminal 0 (phase1 cfg col s).out.infoN)[k]? =
          some (idx, t.terminal_observation) ∧
        ((train_step cfg col s).2.2.pushed.next_obs)[idx]? =
          (renormalizedTerminalObs cfg col s)[k]? ∧
        ((renormalizedTerminalObs cfg col s)[k]?).isSome = true) ∧
    (isTimeTruncated inf = false →
      ∀ d, (phase1 cfg col s).out.done[idx]? = some d →
        ((train_step cfg col s).2.2.pushed.mask)[idx]? =
          some (1 - (if d then (1 : Int) else 0)) ∧
        ((train_step cfg col s).2.2.pushed.next_obs)[idx]? =
          ((phase2 cfg col s).next_obs)[idx]?) := by
  have hspec := truncCorrect_spec col
    (normBatch col (phase1 cfg col s).st.obsNormStats (phase1 cfg col s).st.obsNormReadOnly
      (phase1 cfg col s).out.next_obs).1
    (phase1 cfg col s).st.obsNormReadOnly
    (normBatch col (phase1 cfg col s).st.obsNormStats (phase1 cfg col s).st.obsNormReadOnly
      (phase1 cfg col s).out.next_obs).2
    ((phase1 cfg col s).out.done.map (fun d => 1 - (if d then (1 : Int) else 0)))
    (phase1 cfg col s).out.infoN idx inf hna
    (by rw [normBatch_length col hna]; exact hlo)
    (by rw [List.length_map]; exact hld)
    hinf
  obtain ⟨hA, hB⟩ := hspec
  constructor
  · intro t ht hf
    obtain ⟨hmask, k, hk, hno, hsome⟩ := hA t ht hf
    exact ⟨hmask, k, hk, hno, hsome⟩
  · intro hnt d hd
    obtain ⟨hmask, hno⟩ := hB hnt
    have hmv : (((phase1 cfg col s).out.done.map
        (fun d2 => 1 - (if d2 then (1 : Int) else 0)))[idx]?) =
        some (1 - (if d then (1 : Int) else 0)) := by
      rw [List.getElem?_map, hd]
      rfl
    exact ⟨hmask.trans hmv, hno⟩

/-- Witness for C1 at a concrete step: env 0 ends time-truncated with
terminal observation 5 (stored with mask 1 and next-obs 5, the identity
normalizer's output), env 1 truly terminates (stored mask 0). -/
theorem train_step_truncation_correction_witness :
    ((phase1 cfg0 col0 s0).out.infoN[0]? = some infoTrunc0 ∧
     (phase1 cfg0 col0 s0).out.infoN[1]? = some infoTerm1) ∧
    ((train_step cfg0 col0 s0).2.2.pushed.mask)[0]? = some 1 ∧
    (∃ k : Nat, (collectTerminal 0 (phase1 cfg0 col0 s0).out.infoN)[k]? = some (0, 5) ∧
      ((train_step cfg0 col0 s0).2.2.pushed.next_obs)[0]? =
        (renormalizedTerminalObs cfg0 col0 s0)[k]? ∧
      ((renormalizedTerminalObs cfg0 col0 s0)[k]?).isSome = true) ∧
    ((train_step cfg0 col0 s0).2.2.pushed.mask)[1]? = some 0 := by
  have h0 := train_step_truncation_correction cfg0 col0 s0 0 infoTrunc0
    (fun st l => rfl) rfl rfl rfl
  have h1 := train_step_truncation_correction cfg0 col0 s0 1 infoTerm1
    (fun st l => rfl) rfl rfl rfl
  have ha := h0.1 { TimeLimit_truncated := some true, terminal_observation := 5,
                    constraint_values := 4 } rfl rfl
  have hb := (h1.2 rfl) true rfl
  refine ⟨⟨rfl, rfl⟩, ha.1, ha.2, ?_⟩
  simpa using hb.1
